import Mathlib

/-!
# Verification of the JSONSpyglass scraper core

Shallow embedding of the parts of the JSONSpyglass code base that the
specification's claims are about, together with theorems settling each claim.

Source files embedded here:
* `src/scraping/data_scraper.py` — the hierarchical selector match.
* `src/loaders/response_loader/response_loader.py` — `load_responses` with its
  retry accounting.
* `src/scraping/crawler.py` — the crawl loop (`_run`) and child-URL harvesting.
* `src/events/event_dispatcher.py` and `src/events/event_listener.py` — the
  event bus: listener registration, sorting, removal, sync dispatch and the
  async busy-set discipline.
* `src/models/target_element.py` and `src/factories/config_element_factory.py`
  — compilation of raw attribute descriptors into CSS-selector hierarchies.

Python dictionaries are embedded as insertion-ordered association lists,
Python sets as duplicate-free lists with membership-checked insertion, raising
code as `Except`, and the I/O environment (HTTP fetches, the DOM, the link
builder) as explicit oracle functions passed to the embedded code.
-/

namespace Spyglass

/-! ## Generic helpers: Python dict / set embeddings -/

/-- Membership-checked insertion: Python `set.add` on a set represented as a
duplicate-free list (new elements go to the back). -/
def sinsert {α : Type} [DecidableEq α] (l : List α) (x : α) : List α :=
  if x ∈ l then l else l ++ [x]

/-- Lookup in an insertion-ordered association list (Python `dict.get`). -/
def alistGet {α : Type} : List (String × α) → String → Option α
  | [], _ => none
  | (k, v) :: rest, key => if k = key then some v else alistGet rest key

/-- Update an insertion-ordered association list: replace the value in place
when the key is present, append a new binding otherwise (Python
`dict.__setitem__`). -/
def alistSet {α : Type} : List (String × α) → String → α → List (String × α)
  | [], key, v => [(key, v)]
  | (k, w) :: rest, key, v =>
    if k = key then (k, v) :: rest else (k, w) :: alistSet rest key v

/-- Remove a key from an insertion-ordered association list (Python
`dict.pop`). -/
def alistPop {α : Type} (m : List (String × α)) (key : String) : List (String × α) :=
  m.filter (fun p => p.1 ≠ key)

/-! ## Extraction engine — `src/scraping/data_scraper.py`

`DataScraper._collect_all_target_elements` (lines 78–105).  The parsed DOM is
abstracted by two oracles: `parserCss sel` embeds `parser.css(sel)` (matching
over the whole document) and `css tag sel` embeds `tag.css(sel)` (matching
inside an already-selected node).  Nodes are an arbitrary decidable type. -/

/-- One stage of the hierarchical match: the inner loop of
`_collect_all_target_elements` (lines 97–103).  Every node of the current
result set is queried with the stage selector and the non-empty answers are
concatenated into the new result set. -/
def stageStep {Node : Type} (css : Node → String → List Node)
    (resultSet : List Node) (attr : String) : List Node :=
  resultSet.foldl
    (fun acc tag =>
      let tempResultSet := css tag attr
      if tempResultSet.isEmpty then acc else acc ++ tempResultSet)
    []

/-- `DataScraper._collect_all_target_elements` (lines 90–105), restricted to
the node list it computes (the surrounding `ScrapedData` record only carries
this list together with the url and element id). -/
def collect_all_target_elements {Node : Type} (parserCss : String → List Node)
    (css : Node → String → List Node) (hierarchy : List String) : List Node :=
  match hierarchy with
  | [] => []
  | h0 :: rest =>
    let resultSet := parserCss h0
    if rest = [] then resultSet
    else rest.foldl (stageStep css) resultSet

/-- Concrete document oracle for the counterexample: the whole document
matches selector "a" with the single node `0`. -/
def exParserCss : String → List Nat :=
  fun sel => if sel = "a" then [0] else []

/-- Concrete node oracle for the counterexample: no node matches selector
"b"; every node matches selector "c" with `[5]`. -/
def exCss : Nat → String → List Nat :=
  fun _ sel => if sel = "c" then [5] else []

/-! ## Fetch engine retry accounting —
`src/loaders/response_loader/response_loader.py`

`load_responses` (lines 110–142), `_generate_responses` (lines 300–332) and
`_retry_failed_urls` (lines 264–298).  The network is abstracted by an oracle
`fetch url k` giving the HTTP status code of the `k`-th fetch attempt for
`url` (exceptions are out of scope: the claims are about non-200 statuses).
The coroutines are serialized; since each pass fetches a set of distinct URLs,
the per-URL attempt indices are the same as under concurrent execution. -/

/-- State threaded through one `load_responses` call: the retry map
`_urls_to_retry` (url → recorded count), the number of fetch attempts issued
per url (ghost state counting calls of the response method), and the
successful responses accumulated by the consumer loop in `load_responses`
(url paired with status code, in yield order). -/
structure LoadState where
  retries : List (String × Nat)
  attempts : List (String × Nat)
  results : List (String × Nat)
deriving DecidableEq, Repr

/-- Number of fetch attempts recorded so far for `u`. -/
def LoadState.attemptsOf (st : LoadState) (u : String) : Nat :=
  (alistGet st.attempts u).getD 0

/-- `self._urls_to_retry[url] = self._urls_to_retry.get(url, -1) + 1`
(line 326).  The `-1` sentinel makes a first failure record the count `0`;
afterwards the key is present and the count advances by one, so the stored
counts stay natural numbers. -/
def retryRegister (m : List (String × Nat)) (u : String) : List (String × Nat) :=
  match alistGet m u with
  | none => alistSet m u 0
  | some n => alistSet m u (n + 1)

/-- `self._urls_to_retry[url] += 1` (line 287); the key is always present
there because line 326 ran for the same yielded pair first. -/
def retryIncr (m : List (String × Nat)) (u : String) : List (String × Nat) :=
  match alistGet m u with
  | none => m
  | some n => alistSet m u (n + 1)

/-- The initial pass of `load_responses` (lines 115–138 through
`_generate_responses`): each url is fetched once; a non-200 response is
recorded in the retry map (line 326) and skipped by the consumer (line 134);
a 200 response is added to the returned map (line 137). -/
def initialPass (fetch : String → Nat → Nat) :
    List String → LoadState → LoadState
  | [], st => st
  | u :: rest, st =>
    let k := st.attemptsOf u
    let code := fetch u k
    let attempts := alistSet st.attempts u (k + 1)
    let retries := if code ≠ 200 then retryRegister st.retries u else st.retries
    let results := if code = 200 then st.results ++ [(u, code)] else st.results
    initialPass fetch rest ⟨retries, attempts, results⟩

/-- One iteration of the `while self._urls_to_retry` loop of
`_retry_failed_urls` (lines 274–297).  Keys at or above the retry limit are
collected for removal and not fetched (lines 279–283); the remaining keys are
fetched and the responses are zipped against the full key list
(`_generate_responses`, line 321 — the code zips `urls_to_retry`, not the
fetched subset, which is faithful here).  Each failed pair bumps the count
twice: once in `_generate_responses` (line 326) and once in the consumer loop
(line 287); a successful pair is popped and yielded (lines 290–292).
Finally the keys at the limit are popped (lines 294–295). -/
def retryRound (fetch : String → Nat → Nat) (maxRetries : Nat)
    (st : LoadState) : LoadState :=
  let ks := st.retries.map (fun p => p.1)
  let toRemove := ks.filter (fun u => maxRetries ≤ (alistGet st.retries u).getD 0)
  let toFetch := ks.filter (fun u => ¬ maxRetries ≤ (alistGet st.retries u).getD 0)
  let fetched := toFetch.foldl
    (fun (acc : List Nat × List (String × Nat)) u =>
      let k := (alistGet acc.2 u).getD 0
      (acc.1 ++ [fetch u k], alistSet acc.2 u (k + 1)))
    ([], st.attempts)
  let pairs := ks.zip fetched.1
  let st1 := pairs.foldl
    (fun (st : LoadState) p =>
      if p.2 ≠ 200 then
        { st with retries := retryIncr (retryRegister st.retries p.1) p.1 }
      else
        { st with retries := alistPop st.retries p.1,
                  results := st.results ++ [p] })
    { st with attempts := fetched.2 }
  { st1 with retries := toRemove.foldl alistPop st1.retries }

/-- The `while self._urls_to_retry` loop of `_retry_failed_urls`
(lines 274–297), with explicit fuel.  The loop terminates because every
retained key's count strictly grows each round; the fuel makes the recursion
structural and the theorems pick enough of it. -/
def retryLoop (fetch : String → Nat → Nat) (maxRetries : Nat) :
    Nat → LoadState → LoadState
  | 0, st => st
  | fuel + 1, st =>
    if st.retries = [] then st
    else retryLoop fetch maxRetries fuel (retryRound fetch maxRetries st)

/-- `ResponseLoader.load_responses` (lines 110–142): the initial pass over
the url set followed by the retry loop; `results` collects the returned
`url → response` map in insertion order. -/
def load_responses (fetch : String → Nat → Nat) (maxRetries : Nat) (fuel : Nat)
    (urls : List String) : LoadState :=
  retryLoop fetch maxRetries fuel (initialPass fetch urls ⟨[], [], []⟩)

/-- Fetch oracle for the retry-accounting scenario: every attempt at any url
returns status 503. -/
def fetch503 : String → Nat → Nat := fun _ _ => 503

/-! ## Crawl controller — `src/scraping/crawler.py`

`Crawler._run` (lines 124–173) and
`Crawler.collect_child_urls_from_responses` (lines 104–122), for static
(non-rendered) crawls: `render_pages` is false, so the AJAX click-through
branch (lines 165–167), which never touches `_to_visit` or `_current_depth`,
is skipped.  The environment is abstracted by oracles: `loadOk u` tells
whether `load_responses` returns a response for `u` (a 200 after retries),
`htmlOf u` is that response's html, `hrefsOf html` embeds
`ResponseLoader.get_hrefs_from_html`, `buildLink base href` embeds
`ResponseLoader.build_link`, and `allowed` embeds `_is_url_allowed`. -/

/-- Crawl environment: configuration plus the oracles for fetching and URL
handling. -/
structure CrawlEnv where
  maxDepth : Nat
  hasDelay : Bool
  loadOk : String → Bool
  htmlOf : String → String
  hrefsOf : String → List String
  buildLink : String → String → String
  allowed : String → Bool

/-- Crawler frontier state: `_to_visit`, `_visited`, the per-level `new_urls`
set of `_run`, the ghost list of urls for which a fetch attempt was issued
(passed to `load_responses`), and `_current_depth`. -/
structure CrawlState where
  toVisit : List String
  visited : List String
  newUrls : List String
  fetched : List String
  depth : Nat
deriving DecidableEq, Repr

/-- Initial state after `Crawler.start` (line 89): the seed is the only
frontier entry. -/
def initCrawl (seed : String) : CrawlState :=
  ⟨[seed], [], [], [], 0⟩

/-- Inner loop of `collect_child_urls_from_responses` (lines 117–122) for one
response: every href of the page yields `build_link(base, href)`; the child is
yielded when it is unvisited and allowed, and is added to `_visited`
unconditionally afterwards. -/
def harvestHrefs (env : CrawlEnv) (base : String) :
    List String → List String → List String → List String × List String
  | [], acc, vis => (acc, vis)
  | href :: rest, acc, vis =>
    let child := env.buildLink base href
    let acc' := if child ∉ vis ∧ env.allowed child then acc ++ [child] else acc
    harvestHrefs env base rest acc' (sinsert vis child)

/-- `Crawler.collect_child_urls_from_responses` (lines 104–122): iterate the
(url, response) pairs, harvesting each response's hrefs while threading the
`_visited` set; returns the yielded children and the updated visited set. -/
def collect_child_urls_from_responses (env : CrawlEnv) :
    List (String × String) → List String → List String → List String × List String
  | [], acc, vis => (acc, vis)
  | (base, html) :: rest, acc, vis =>
    let harvested := harvestHrefs env base (env.hrefsOf html) acc vis
    collect_child_urls_from_responses env rest harvested.1 harvested.2

/-- One iteration of the `while` loop of `Crawler._run` (lines 131–173):
fetch one url (crawl-delay mode, line 136) or the whole frontier (line 143),
add the response urls to `_visited` (line 151), harvest child urls
(line 161), and on an empty frontier promote `new_urls` and advance the depth
(lines 169–173). -/
def crawlStep (env : CrawlEnv) (s : CrawlState) : CrawlState :=
  let requested := if env.hasDelay then s.toVisit.take 1 else s.toVisit
  let rest := if env.hasDelay then s.toVisit.drop 1 else []
  let pairs := (requested.filter env.loadOk).map (fun u => (u, env.htmlOf u))
  let fetched := s.fetched ++ requested
  let visited := pairs.foldl (fun v p => sinsert v p.1) s.visited
  let harvested := collect_child_urls_from_responses env pairs [] visited
  let newUrls := harvested.1.foldl sinsert s.newUrls
  if rest = [] then
    { toVisit := newUrls, visited := harvested.2, newUrls := [],
      fetched := fetched, depth := s.depth + 1 }
  else
    { toVisit := rest, visited := harvested.2, newUrls := newUrls,
      fetched := fetched, depth := s.depth }

/-- Loop guard of `_run` (line 131):
`while self._to_visit and self._current_depth <= self.max_depth`. -/
def crawlGuard (env : CrawlEnv) (s : CrawlState) : Bool :=
  ¬ s.toVisit = [] ∧ s.depth ≤ env.maxDepth

/-- The `while` loop of `Crawler._run` (lines 131–173) with explicit fuel:
steps while the guard holds; a state with a false guard is the loop's exit
state and is returned unchanged. -/
def crawlRun (env : CrawlEnv) : Nat → CrawlState → CrawlState
  | 0, s => s
  | fuel + 1, s =>
    if crawlGuard env s then crawlRun env fuel (crawlStep env s) else s

/-- Environment for the depth-bound counterexample: every fetch succeeds and
no page links anywhere; `max_depth = 0`. -/
def envDepth : CrawlEnv :=
  ⟨0, false, fun _ => true, fun _ => "", fun _ => [], fun _ h => h, fun _ => true⟩

/-- Environment for the visited-implies-fetched counterexample: the seed page
"s" loads with html "H" containing one link to "b", and "b" fails the gating
check, so it is never fetched. -/
def envVisited : CrawlEnv :=
  ⟨1, false, fun _ => true,
   fun u => if u = "s" then "H" else "",
   fun html => if html = "H" then ["b"] else [],
   fun _ h => h,
   fun u => u = "s"⟩

/-! ## Event bus — `src/events/event_dispatcher.py`,
`src/events/event_listener.py`

Callbacks are an arbitrary decidable type `Cb` (Python compares function
objects by identity, embedded as decidable equality).  The listener map
`_listeners : Dict[str, List[EventListener]]` is an insertion-ordered
association list. -/

/-- `Priority` (event_listener.py lines 5–8): `HIGH = 1`, `NORMAL = 2`,
`LOW = 3`. -/
inductive Priority where
  | HIGH
  | NORMAL
  | LOW
deriving DecidableEq, Repr

/-- The `value` of the `Priority` enum member. -/
def Priority.val : Priority → Nat
  | .HIGH => 1
  | .NORMAL => 2
  | .LOW => 3

/-- `EventListener` (event_listener.py lines 11–28): a callback with a
priority. -/
structure EventListener (Cb : Type) where
  callback : Cb
  priority : Priority
deriving DecidableEq, Repr

/-- The listener dictionary `EventDispatcher._listeners`. -/
def ListenerMap (Cb : Type) : Type := List (String × List (EventListener Cb))

/-- A Python value taking part in an `==` comparison inside the dispatcher:
either a callback (a function object) or an `EventListener` instance. -/
inductive PyVal (Cb : Type) where
  | func : Cb → PyVal Cb
  | listener : EventListener Cb → PyVal Cb

/-- `EventListener.__eq__` (event_listener.py lines 16–19): `False` unless
the other operand is an `EventListener`, in which case the priorities are
compared — the callbacks are not. -/
def eventListenerEq {Cb : Type} (a : EventListener Cb) : PyVal Cb → Bool
  | .listener o => a.priority = o.priority
  | .func _ => false

/-- Python's `==` protocol for the two value kinds above: function objects
compare by identity; a function compared with an `EventListener` falls back
to the reflected `EventListener.__eq__`, which returns `False`. -/
def pyEq {Cb : Type} [DecidableEq Cb] : PyVal Cb → PyVal Cb → Bool
  | .func a, .func b => a = b
  | .func a, .listener l => eventListenerEq l (.func a)
  | .listener l, y => eventListenerEq l y

/-- `EventDispatcher._register_event_listener` (lines 198–215).  The guard is
the source's `if listener.callback in [lstener for lstener in
self._listeners.get(event_name, [])]: return` — a membership test of the
*callback* in the list of `EventListener` objects, resolved through `pyEq`.
Otherwise the new listener is appended to the topic's list (created when
absent). -/
def register_event_listener {Cb : Type} [DecidableEq Cb] (m : ListenerMap Cb)
    (eventName : String) (cb : Cb) (p : Priority) : ListenerMap Cb :=
  let listener : EventListener Cb := ⟨cb, p⟩
  let cur := (alistGet m eventName).getD []
  if cur.any (fun l => pyEq (PyVal.func listener.callback) (PyVal.listener l)) then m
  else alistSet m eventName (cur ++ [listener])

/-- Stable insertion of a listener into a list sorted by ascending
`priority.value` (the element goes before the first strictly larger key, after
equal keys already placed). -/
def insertByPriority {Cb : Type} (l : EventListener Cb) :
    List (EventListener Cb) → List (EventListener Cb)
  | [] => [l]
  | x :: xs =>
    if l.priority.val ≤ x.priority.val then l :: x :: xs
    else x :: insertByPriority l xs

/-- Stable sort by ascending `priority.value`; Python's `sorted` with
`key=lambda event_listener: event_listener.priority.value` is a stable sort
by the same key, so it computes the same list. -/
def stableSortByPriority {Cb : Type} :
    List (EventListener Cb) → List (EventListener Cb)
  | [] => []
  | x :: xs => insertByPriority x (stableSortByPriority xs)

/-- `EventDispatcher._sort_listeners` (lines 217–225). -/
def sort_listeners {Cb : Type} (m : ListenerMap Cb) (eventName : String) :
    ListenerMap Cb :=
  match alistGet m eventName with
  | none => m
  | some lst => alistSet m eventName (stableSortByPriority lst)

/-- `EventDispatcher.add_listener` (lines 56–68) for a callable listener:
register, then sort the topic's list. -/
def add_listener {Cb : Type} [DecidableEq Cb] (m : ListenerMap Cb)
    (eventName : String) (cb : Cb) (p : Priority) : ListenerMap Cb :=
  sort_listeners (register_event_listener m eventName cb p) eventName

/-- Python `list.remove(x)`: delete the first element `== x`; for
`EventListener`s that comparison is priority equality (with the identity
shortcut subsumed, since the sought element itself has its own priority). -/
def pyListRemoveListener {Cb : Type} (p : Priority) :
    List (EventListener Cb) → List (EventListener Cb)
  | [] => []
  | x :: xs => if x.priority = p then xs else x :: pyListRemoveListener p xs

/-- `EventDispatcher.remove_listener` (lines 70–80).
`self._listeners.get(event_name)` is `None` for an unknown topic, and
iterating `None` raises a `TypeError`, embedded as `Except.error`.  Otherwise
the loop finds the first listener whose callback equals the argument and
calls `list.remove` on it (which removes the first list element `==` to it,
i.e. the first with the same priority); without a match the map is returned
unchanged. -/
def remove_listener {Cb : Type} [DecidableEq Cb] (m : ListenerMap Cb)
    (eventName : String) (cb : Cb) : Except String (ListenerMap Cb) :=
  match alistGet m eventName with
  | none => .error "TypeError: argument of type NoneType is not iterable"
  | some lst =>
    match lst.find? (fun l => l.callback = cb) with
    | none => .ok m
    | some el => .ok (alistSet m eventName (pyListRemoveListener el.priority lst))

/-! ### Synchronous dispatch — `EventDispatcher._trigger` (lines 94–116)

The behaviour of the callbacks is abstracted by `raises cb`: whether calling
`cb` raises.  The dispatch returns the callbacks that were invoked, in order,
paired with `true` when an exception escaped the dispatch (there is no
`try`/`except` around the call on line 112, so a raising callback aborts the
loop and the exception propagates to the event-loop runner). -/

/-- The listener loop of `_trigger` (lines 105–116) with the running
`responses` counter: a listener is called while `max_responders` is `-1` or
the counter is below it; a raising callback ends the loop exceptionally. -/
def triggerLoop {Cb : Type} (raises : Cb → Bool) (maxResponders : Int) :
    List (EventListener Cb) → Int → List Cb × Bool
  | [], _ => ([], false)
  | l :: rest, responses =>
    if maxResponders = -1 ∨ responses < maxResponders then
      if raises l.callback then ([l.callback], true)
      else
        let r := triggerLoop raises maxResponders rest (responses + 1)
        (l.callback :: r.1, r.2)
    else ([], false)

/-- `EventDispatcher._trigger` (lines 94–116): return immediately when the
topic has no listener list or events are cancelled, otherwise run the
listener loop from a zero counter. -/
def sync_trigger {Cb : Type} (raises : Cb → Bool) (m : ListenerMap Cb)
    (cancelEvents : Bool) (topic : String) (maxResponders : Int) :
    List Cb × Bool :=
  match alistGet m topic with
  | none => ([], false)
  | some listeners =>
    if cancelEvents then ([], false)
    else triggerLoop raises maxResponders listeners 0

/-! ### Asynchronous dispatch and the busy set —
`EventDispatcher._async_trigger` (lines 130–144) and `_run_listener`
(lines 146–168)

`_async_trigger` gathers one `_run_listener` per listener in
`listeners[:max_responders]`.  `_run_listener` adds the callback to
`_busy_listeners`, awaits it, and removes it afterwards — with no
`try`/`finally`, so a raising callback is never removed.  `asyncio.gather`
without `return_exceptions` propagates the first exception but does not
cancel the other scheduled coroutines, so serializing the listeners preserves
both the set of invoked callbacks and the final busy set. -/

/-- Python slice `l[:k]` with an `int` bound: a negative bound counts from
the end. -/
def pySlice {α : Type} (l : List α) (k : Int) : List α :=
  if 0 ≤ k then l.take k.toNat else l.take (l.length - (-k).toNat)

/-- `EventDispatcher._remove_busy_listener` (lines 227–234): discard the
callback if present. -/
def remove_busy_listener {Cb : Type} [DecidableEq Cb] (busy : List Cb)
    (cb : Cb) : List Cb :=
  if cb ∈ busy then busy.erase cb else busy

/-- `EventDispatcher._run_listener` (lines 146–168) acting on the busy set:
a callback that is busy is skipped unless the event allows busy triggers;
an invoked callback is added to the busy set and removed again only when the
call returns without raising (line 168 is unreachable on an exception). -/
def run_listener_busy {Cb : Type} [DecidableEq Cb] (raises : Cb → Bool)
    (allowBusyTrigger : Bool) (busy : List Cb) (cb : Cb) : List Cb :=
  if cb ∉ busy ∨ allowBusyTrigger then
    let busy' := sinsert busy cb
    if raises cb then busy' else remove_busy_listener busy' cb
  else busy

/-- The event payload fields that drive asynchronous dispatch. -/
structure AsyncEvent where
  maxResponders : Int
  allowBusyTrigger : Bool
deriving DecidableEq, Repr

/-- `EventDispatcher._async_trigger` (lines 130–144) acting on the busy set:
return unchanged when events are cancelled; otherwise run every listener in
`listeners[:max_responders]` (all of them when `max_responders` is `-1`). -/
def async_trigger_busy {Cb : Type} [DecidableEq Cb] (raises : Cb → Bool)
    (cancelEvents : Bool) (ev : AsyncEvent) (listeners : List (EventListener Cb))
    (busy : List Cb) : List Cb :=
  if cancelEvents then busy
  else
    let maxR : Int :=
      if ev.maxResponders = -1 then listeners.length else ev.maxResponders
    (pySlice listeners maxR).foldl
      (fun b l => run_listener_busy raises ev.allowBusyTrigger b l.callback) busy

/-- One asynchronous dispatch as queued by the worker: its event fields and
the listener list of its topic at dispatch time. -/
structure ADispatch (Cb : Type) where
  ev : AsyncEvent
  listeners : List (EventListener Cb)

/-- The busy set after the event-loop worker has processed a queue of
asynchronous dispatches (with events enabled). -/
def runDispatchQueue {Cb : Type} [DecidableEq Cb] (raises : Cb → Bool)
    (queue : List (ADispatch Cb)) (busy : List Cb) : List Cb :=
  queue.foldl (fun b d => async_trigger_busy raises false d.ev d.listeners b) busy

/-- `EventDispatcher.close` (lines 39–54) acting on the busy set: it waits
for the queue to drain and gathers the in-flight `_async_trigger` tasks, but
never mutates `_busy_listeners`, so the busy set it returns with is exactly
the busy set after the queued dispatches ran. -/
def close_busy {Cb : Type} (busy : List Cb) : List Cb :=
  busy

/-! ## Selector model — `src/models/target_element.py`

`TargetElement.collect_attributes` (lines 12–54),
`format_css_selectors` (lines 93–129),
`format_search_hierarchy_from_attributes` (lines 56–87) and
`create_search_hierarchy_from_attributes` (lines 131–139); the factory glue
is `ConfigElementFactory._create_target`
(`src/factories/config_element_factory.py`, lines 76–106).

A raw attribute entry `{name: …, value: …}` is embedded as a string pair
with the dictionary defaults already resolved (`get("name", "")`,
`get("value", "None")`); an attribute-descriptor set (a Python dict of
attribute name → value) is an insertion-ordered association list.  Raising
`ValueError` is embedded as `Except.error`. -/

/-- `str.split()` with no separator: split on whitespace runs, discarding
empty tokens.  Implemented over the character list so that the kernel
evaluates it. -/
def splitWsAux : List Char → List Char → List String
  | [], [] => []
  | [], acc => [String.mk acc.reverse]
  | c :: cs, acc =>
    if c.isWhitespace then
      if acc = [] then splitWsAux cs []
      else String.mk acc.reverse :: splitWsAux cs []
    else splitWsAux cs (c :: acc)

/-- Python `values.split()`. -/
def pySplit (s : String) : List String :=
  splitWsAux s.toList []

/-- `'.'.join(tokens)`. -/
def joinDots : List String → String
  | [] => ""
  | [t] => t
  | t :: ts => t ++ "." ++ joinDots ts

/-- `' '.join(values)`. -/
def joinSpace : List String → String
  | [] => ""
  | [t] => t
  | t :: ts => t ++ " " ++ joinSpace ts

/-- The selector built for one attribute by `format_css_selectors`
(lines 120–127): a `class` attribute becomes `.t₁.t₂…` over its
whitespace-split tokens, any other attribute `name=value` becomes
`[name=value]`. -/
def fmtSelector (name value : String) : String :=
  if name = "class" then "." ++ joinDots (pySplit value)
  else "[" ++ name ++ "=" ++ value ++ "]"

/-- `TargetElement.format_css_selectors` (lines 93–129): one selector per
attribute of the formatted-attribute dictionary, in insertion order; an empty
value raises `ValueError` (line 124).  The generator is embedded fully
forced, as its only caller consumes it with `list.extend`. -/
def format_css_selectors : List (String × String) → Except String (List String)
  | [] => .ok []
  | (name, value) :: rest =>
    if value = "" then .error "improperly formatted attribute, missing name or value"
    else (format_css_selectors rest).map (fun tail => fmtSelector name value :: tail)

/-- `TargetElement.format_search_hierarchy_from_attributes` (lines 56–87):
`search_hierarchy.extend(cls.format_css_selectors(attributes))` for each
attribute set of the collection. -/
def format_search_hierarchy_from_attributes :
    List (List (String × String)) → Except String (List String)
  | [] => .ok []
  | attrs :: rest => do
    let sels ← format_css_selectors attrs
    let more ← format_search_hierarchy_from_attributes rest
    .ok (sels ++ more)

/-- Append `v` to the value list of `k`, keeping first-insertion key order
(the `if name in attr … else …` branch of `collect_attributes`,
lines 49–52). -/
def upsertAppend : List (String × List String) → String → String →
    List (String × List String)
  | [], k, v => [(k, [v])]
  | (k', vs) :: rest, k, v =>
    if k' = k then (k', vs ++ [v]) :: rest
    else (k', vs) :: upsertAppend rest k v

/-- The accumulation loop of `TargetElement.collect_attributes`
(lines 41–52): an empty name or value raises `ValueError` (line 47),
otherwise the value is appended under its name. -/
def collectAttrLoop : List (String × String) → List (String × List String) →
    Except String (List (String × List String))
  | [], acc => .ok acc
  | (name, value) :: rest, acc =>
    if value = "" ∨ name = "" then
      .error "Improperly formatted attributes, missing value or name"
    else collectAttrLoop rest (upsertAppend acc name value)

/-- `TargetElement.collect_attributes` (lines 12–54): accumulate the
attribute values per name, then space-join each name's values (line 54). -/
def collect_attributes (attrs : List (String × String)) :
    Except String (List (String × String)) :=
  (collectAttrLoop attrs []).map
    (fun l => l.map (fun p => (p.1, joinSpace p.2)))

/-- `TargetElement.create_search_hierarchy_from_attributes` (lines 131–139):
the already-formatted attribute dictionary wrapped as a one-set collection. -/
def create_search_hierarchy_from_attributes (attrs : List (String × String)) :
    Except String (List String) :=
  format_search_hierarchy_from_attributes [attrs]

/-- The attributes path of `ConfigElementFactory._create_target`
(lines 87–104) restricted to the hierarchy it computes: collect the raw
attribute entries (line 88), then build the search hierarchy from them
(line 104 via `create_search_hierarchy_from_attributes`). -/
def compileTargetAttributes (raw : List (String × String)) :
    Except String (List String) :=
  (collect_attributes raw).bind create_search_hierarchy_from_attributes

/-! ## Statement-level definitions used by the theorems -/

/-- `u` is a child link of the page fetched at `b`: it is built by
`build_link` from one of the hrefs of `b`'s html. -/
def childLink (env : CrawlEnv) (b u : String) : Prop :=
  u ∈ (env.hrefsOf (env.htmlOf b)).map (env.buildLink b)

/-- Soundness of the visited set: every visited URL was either fetched or
harvested as a child link of a fetched page. -/
def visitedSound (env : CrawlEnv) (s : CrawlState) : Prop :=
  ∀ u ∈ s.visited, u ∈ s.fetched ∨ ∃ b ∈ s.fetched, childLink env b u

/-- A listener map built from an empty dispatcher by a sequence of
`add_listener` calls `(topic, callback, priority)`. -/
def applyAdds {Cb : Type} [DecidableEq Cb]
    (ops : List (String × Cb × Priority)) : ListenerMap Cb :=
  ops.foldl (fun m o => add_listener m o.1 o.2.1 o.2.2) []

/-! # Theorems -/

/-! ## Helper lemmas -/

theorem stageStep_nil {Node : Type} (css : Node → String → List Node)
    (attr : String) : stageStep css [] attr = [] :=
  rfl

theorem foldl_stageStep_nil {Node : Type} (css : Node → String → List Node) :
    ∀ l : List String, l.foldl (stageStep css) [] = []
  | [] => rfl
  | _ :: rest => by
    rw [List.foldl_cons, stageStep_nil]
    exact foldl_stageStep_nil css rest

/-! ## C1 — hierarchical match on an empty stage -/

/-- C1 counterexample.  The claim says that when a stage of a (≥ 2)-stage
hierarchy matches no nodes, the engine returns the result set accumulated
before that stage.  In the document oracle `exParserCss`/`exCss`, stage "a"
matches node `0` and stage "b" matches nothing, so the set accumulated before
the failing stage is `[0]`; the code instead returns the empty set. -/
theorem claim_C1_counterexample :
    collect_all_target_elements exParserCss exCss ["a", "b", "c"] = [] ∧
    exParserCss "a" = [0] ∧
    stageStep exCss (exParserCss "a") "b" = [] ∧
    ([] : List Nat) ≠ [0] := by
  decide

/-- C1 amended: in `_collect_all_target_elements`, when some stage of a
multi-stage hierarchy matches no nodes over the whole current result set, the
traversal continues with the empty set and the final result is empty —
partial matches of shorter chains are NOT preserved. -/
theorem claim_C1_amended {Node : Type} (parserCss : String → List Node)
    (css : Node → String → List Node) (h0 attr : String) (l1 l2 : List String)
    (h : stageStep css (l1.foldl (stageStep css) (parserCss h0)) attr = []) :
    collect_all_target_elements parserCss css (h0 :: (l1 ++ attr :: l2)) = [] := by
  have hne : ¬ (l1 ++ attr :: l2) = [] := by simp
  simp only [collect_all_target_elements, if_neg hne]
  rw [List.foldl_append, List.foldl_cons, h, foldl_stageStep_nil]

/-- C1 witness: the amended theorem applied to the counterexample document,
with the empty stage "b" of hierarchy `["a", "b", "c"]`. -/
theorem claim_C1_witness :
    stageStep exCss (List.foldl (stageStep exCss) (exParserCss "a") []) "b" = [] ∧
    collect_all_target_elements exParserCss exCss ("a" :: ([] ++ "b" :: ["c"])) = [] :=
  ⟨by decide, claim_C1_amended exParserCss exCss "a" "b" [] ["c"] (by decide)⟩

/-! ## C2 — retry accounting -/

/-- C2 counterexample.  With `max_retries = 2` and a URL whose every fetch
returns 503, the claim predicts exactly 3 fetch attempts; the code issues
only 2, because a failed retry increments the recorded count twice — once in
`_generate_responses` (line 326) and once in `_retry_failed_urls`
(line 287) — so the count jumps from 0 to 2 after a single retry and the URL
is dropped.  (`u` is indeed absent from the returned map.) -/
theorem claim_C2_counterexample :
    (load_responses fetch503 2 5 ["u"]).attemptsOf "u" = 2 ∧
    ¬ (load_responses fetch503 2 5 ["u"]).attemptsOf "u" = 3 := by
  decide

/-- C2 amended: with `max_retries = 2` and every fetch of `u` returning 503,
`load_responses` issues exactly 2 fetch attempts for `u` (the initial pass
plus one retry, each failed retry advancing the recorded count by two), and
`u` is absent from the returned response map. -/
theorem claim_C2_amended :
    (load_responses fetch503 2 5 ["u"]).attemptsOf "u" = 2 ∧
    alistGet (load_responses fetch503 2 5 ["u"]).results "u" = none ∧
    (load_responses fetch503 2 5 ["u"]).retries = [] := by
  decide

/-! ## C3 — depth monotonicity and bound -/

theorem crawlStep_depth_cases (env : CrawlEnv) (s : CrawlState) :
    (crawlStep env s).depth = s.depth + 1 ∨ (crawlStep env s).depth = s.depth := by
  simp only [crawlStep]
  split <;> split <;> first
    | exact Or.inl rfl
    | exact Or.inr rfl

theorem crawlGuard_decomp (env : CrawlEnv) (s : CrawlState)
    (h : crawlGuard env s = true) : s.depth ≤ env.maxDepth := by
  simp only [crawlGuard, Bool.decide_and, Bool.and_eq_true, decide_eq_true_eq] at h
  exact h.2

/-- C3 counterexample.  The claim says the crawl loop exits with
`current_depth ≤ max_depth`.  With `max_depth = 0` and a seed page without
links, the loop body runs once, promotes the (empty) `new_urls` set and
increments the depth to 1; the guard is then false, so the loop exits with
`current_depth = 1 > 0 = max_depth`. -/
theorem claim_C3_counterexample :
    crawlGuard envDepth (crawlRun envDepth 2 (initCrawl "s")) = false ∧
    (crawlRun envDepth 2 (initCrawl "s")).depth = 1 ∧
    ¬ (crawlRun envDepth 2 (initCrawl "s")).depth ≤ envDepth.maxDepth := by
  decide

/-- C3 amended: throughout any crawl, `current_depth` is monotonically
non-decreasing, and it never exceeds `max_depth + 1` (every loop-body entry
has `current_depth ≤ max_depth` by the guard, and a body iteration increments
the depth by at most one — so the loop can exit with `max_depth + 1`, not
`max_depth`). -/
theorem claim_C3_amended (env : CrawlEnv) (fuel : Nat) (s : CrawlState) :
    s.depth ≤ (crawlRun env fuel s).depth ∧
    (s.depth ≤ env.maxDepth + 1 →
      (crawlRun env fuel s).depth ≤ env.maxDepth + 1) := by
  induction fuel generalizing s with
  | zero => exact ⟨Nat.le_refl _, fun h => h⟩
  | succ n ih =>
    unfold crawlRun
    by_cases hg : crawlGuard env s = true
    · rw [if_pos hg]
      have hd := crawlStep_depth_cases env s
      have hbound := crawlGuard_decomp env s hg
      refine ⟨?_, fun _ => ?_⟩
      · refine Nat.le_trans ?_ (ih (crawlStep env s)).1
        rcases hd with h1 | h1 <;> omega
      · refine (ih (crawlStep env s)).2 ?_
        rcases hd with h1 | h1 <;> omega
    · rw [if_neg hg]
      exact ⟨Nat.le_refl _, fun h => h⟩

/-- C3 witness: the amended theorem at the counterexample crawl. -/
theorem claim_C3_witness :
    (initCrawl "s").depth ≤ (crawlRun envDepth 2 (initCrawl "s")).depth ∧
    (crawlRun envDepth 2 (initCrawl "s")).depth ≤ envDepth.maxDepth + 1 :=
  ⟨(claim_C3_amended envDepth 2 (initCrawl "s")).1,
   (claim_C3_amended envDepth 2 (initCrawl "s")).2 (by decide)⟩

/-! ## C4 — visited implies fetched -/

theorem mem_sinsert {α : Type} [DecidableEq α] {l : List α} {x u : α}
    (h : u ∈ sinsert l x) : u ∈ l ∨ u = x := by
  unfold sinsert at h
  split at h
  · exact Or.inl h
  · rcases List.mem_append.1 h with h1 | h1
    · exact Or.inl h1
    · exact Or.inr (List.mem_singleton.1 h1)

theorem harvestHrefs_visited_mem (env : CrawlEnv) (base : String)
    (hs : List String) : ∀ (acc vis : List String) (u : String),
    u ∈ (harvestHrefs env base hs acc vis).2 →
    u ∈ vis ∨ ∃ h ∈ hs, u = env.buildLink base h := by
  induction hs with
  | nil => intro acc vis u h; exact Or.inl h
  | cons href rest ih =>
    intro acc vis u h
    simp only [harvestHrefs] at h
    rcases ih _ _ u h with h1 | ⟨hh, hmem, he⟩
    · rcases mem_sinsert h1 with h2 | h2
      · exact Or.inl h2
      · exact Or.inr ⟨href, List.mem_cons_self _ _, h2⟩
    · exact Or.inr ⟨hh, List.mem_cons_of_mem _ hmem, he⟩

theorem collect_child_urls_visited_mem (env : CrawlEnv)
    (pairs : List (String × String)) : ∀ (acc vis : List String) (u : String),
    u ∈ (collect_child_urls_from_responses env pairs acc vis).2 →
    u ∈ vis ∨ ∃ p ∈ pairs, ∃ h ∈ env.hrefsOf p.2, u = env.buildLink p.1 h := by
  induction pairs with
  | nil => intro acc vis u h; exact Or.inl h
  | cons p rest ih =>
    intro acc vis u h
    obtain ⟨base, html⟩ := p
    simp only [collect_child_urls_from_responses] at h
    rcases ih _ _ u h with h1 | ⟨q, hq, hh, hhm, he⟩
    · rcases harvestHrefs_visited_mem env base (env.hrefsOf html) _ _ u h1 with
        h2 | ⟨hr, hrm, hre⟩
      · exact Or.inl h2
      · exact Or.inr ⟨(base, html), List.mem_cons_self _ _, hr, hrm, hre⟩
    · exact Or.inr ⟨q, List.mem_cons_of_mem _ hq, hh, hhm, he⟩

theorem mem_foldl_sinsert_fst (pairs : List (String × String)) :
    ∀ (init : List String) (u : String),
    u ∈ pairs.foldl (fun v p => sinsert v p.1) init →
    u ∈ init ∨ ∃ p ∈ pairs, u = p.1 := by
  induction pairs with
  | nil => intro init u h; exact Or.inl h
  | cons p rest ih =>
    intro init u h
    rw [List.foldl_cons] at h
    rcases ih _ u h with h1 | ⟨q, hq, he⟩
    · rcases mem_sinsert h1 with h2 | h2
      · exact Or.inl h2
      · exact Or.inr ⟨p, List.mem_cons_self _ _, h2⟩
    · exact Or.inr ⟨q, List.mem_cons_of_mem _ hq, he⟩

theorem harvest_phase_sound (env : CrawlEnv) (requested : List String)
    (visited fetched : List String)
    (hvis : ∀ u ∈ visited, u ∈ fetched ∨ ∃ b ∈ fetched, childLink env b u)
    (hreq : ∀ u ∈ requested, u ∈ fetched) (u : String)
    (hu : u ∈ (collect_child_urls_from_responses env
        ((requested.filter env.loadOk).map (fun w => (w, env.htmlOf w))) []
        (((requested.filter env.loadOk).map (fun w => (w, env.htmlOf w))).foldl
          (fun v p => sinsert v p.1) visited)).2) :
    u ∈ fetched ∨ ∃ b ∈ fetched, childLink env b u := by
  rcases collect_child_urls_visited_mem env _ _ _ u hu with h1 | ⟨p, hp, hh, hhm, he⟩
  · rcases mem_foldl_sinsert_fst _ _ u h1 with h2 | ⟨p2, hp2, he2⟩
    · exact hvis u h2
    · rcases List.mem_map.1 hp2 with ⟨w, hw, hwp⟩
      rw [he2, ← hwp]
      exact Or.inl (hreq w (List.mem_of_mem_filter hw))
  · rcases List.mem_map.1 hp with ⟨w, hw, hwp⟩
    refine Or.inr ⟨w, hreq w (List.mem_of_mem_filter hw), ?_⟩
    rw [← hwp] at hhm he
    exact List.mem_map.2 ⟨hh, hhm, he.symm⟩

theorem crawlStep_visitedSound (env : CrawlEnv) (s : CrawlState)
    (hs : visitedSound env s) : visitedSound env (crawlStep env s) := by
  have base : ∀ (requested : List String) (u : String),
      u ∈ (collect_child_urls_from_responses env
          ((requested.filter env.loadOk).map (fun w => (w, env.htmlOf w))) []
          (((requested.filter env.loadOk).map (fun w => (w, env.htmlOf w))).foldl
            (fun v p => sinsert v p.1) s.visited)).2 →
      u ∈ s.fetched ++ requested ∨ ∃ b ∈ s.fetched ++ requested, childLink env b u := by
    intro requested u hu
    refine harvest_phase_sound env requested s.visited (s.fetched ++ requested)
      ?_ ?_ u hu
    · intro v hv
      rcases hs v hv with h1 | ⟨b, hb, hc⟩
      · exact Or.inl (List.mem_append_left _ h1)
      · exact Or.inr ⟨b, List.mem_append_left _ hb, hc⟩
    · intro v hv
      exact List.mem_append_right _ hv
  intro u hu
  cases hdel : env.hasDelay with
  | false =>
    simp only [crawlStep, hdel, Bool.false_eq_true, if_false, if_true] at hu ⊢
    exact base s.toVisit u hu
  | true =>
    simp only [crawlStep, hdel, if_true] at hu ⊢
    by_cases hrest : s.toVisit.drop 1 = []
    · simp only [if_pos hrest] at hu ⊢
      exact base (s.toVisit.take 1) u hu
    · simp only [if_neg hrest] at hu ⊢
      exact base (s.toVisit.take 1) u hu

/-- C4 counterexample.  In `envVisited` the seed page "s" links to "b", which
fails the gating check; `collect_child_urls_from_responses` nevertheless adds
"b" to `_visited` (line 122), so the final crawl state has "b" visited while
no fetch attempt was ever made for it. -/
theorem claim_C4_counterexample :
    "b" ∈ (crawlRun envVisited 3 (initCrawl "s")).visited ∧
    "b" ∉ (crawlRun envVisited 3 (initCrawl "s")).fetched := by
  decide

/-- C4 amended: in any reachable state of a (static) crawl, a URL in the
visited set was either fetched (passed to `load_responses`) or harvested as a
child link of a fetched page's html by `collect_child_urls_from_responses` —
the harvesting loop adds every built child URL to `_visited` without fetching
it. -/
theorem claim_C4_amended (env : CrawlEnv) (fuel : Nat) (s : CrawlState)
    (hs : visitedSound env s) : visitedSound env (crawlRun env fuel s) := by
  induction fuel generalizing s with
  | zero => exact hs
  | succ n ih =>
    unfold crawlRun
    by_cases hg : crawlGuard env s = true
    · rw [if_pos hg]
      exact ih _ (crawlStep_visitedSound env s hs)
    · rw [if_neg hg]
      exact hs

/-- C4 witness: the amended invariant holds for the counterexample crawl
(every visited URL of that run, "b" included, is fetched or a child link of
the fetched seed). -/
theorem claim_C4_witness :
    visitedSound envVisited (crawlRun envVisited 3 (initCrawl "s")) :=
  claim_C4_amended envVisited 3 (initCrawl "s")
    (by intro u hu; simp [initCrawl] at hu)

/-! ## C5 — add_listener idempotence -/

/-- C5: the code contradicts its own inline comment ("if the callback is
already registered in the event, return").  The guard of
`_register_event_listener` tests `listener.callback in [… EventListener …]`,
which compares the callback against `EventListener` objects; by Python's
equality protocol that comparison falls to `EventListener.__eq__`, which
returns `False` for a non-`EventListener` operand, so the guard never fires
and re-registering the same callback appends a duplicate: the topic's list
has length 2 after two identical `add_listener` calls. -/
theorem claim_C5_eval :
    (alistGet (add_listener
        (add_listener ([] : ListenerMap Nat) "new_responses" 7 .NORMAL)
        "new_responses" 7 .NORMAL) "new_responses").map List.length = some 2 := by
  decide

/-! ## C6 — listener errors during dispatch -/

/-- C6 counterexample.  Topic "t" has two listeners; the first (callback `1`)
raises.  The claim says the error is contained and the remaining eligible
listener is still invoked; `_trigger` has no `try`/`except` (line 112), so
the dispatch invokes only `[1]`, the exception escapes (`true`), and the
eligible callback `2` is never invoked. -/
theorem claim_C6_counterexample :
    sync_trigger (fun n : Nat => decide (n = 1))
        [("t", [⟨1, .HIGH⟩, ⟨2, .NORMAL⟩])] false "t" (-1) = ([1], true) ∧
    (2 : Nat) ∉ (sync_trigger (fun n : Nat => decide (n = 1))
        [("t", [⟨1, .HIGH⟩, ⟨2, .NORMAL⟩])] false "t" (-1)).1 := by
  decide

theorem triggerLoop_prefix_raise {Cb : Type} (raises : Cb → Bool)
    (l : EventListener Cb) (post : List (EventListener Cb))
    (hl : raises l.callback = true) :
    ∀ (pre : List (EventListener Cb)) (r : Int),
      (∀ x ∈ pre, raises x.callback = false) →
      triggerLoop raises (-1) (pre ++ l :: post) r =
        (pre.map (fun x => x.callback) ++ [l.callback], true) := by
  intro pre
  induction pre with
  | nil =>
    intro r _
    simp [triggerLoop, hl]
  | cons x rest ih =>
    intro r hpre
    have hx : raises x.callback = false := hpre x (List.mem_cons_self _ _)
    have ih' := ih (r + 1) (fun y hy => hpre y (List.mem_cons_of_mem _ hy))
    simp only [List.cons_append, triggerLoop, hx, Bool.false_eq_true, if_false,
      eq_self_iff_true, true_or, if_true, List.append_eq]
    rw [ih']
    simp

/-- C6 amended: during synchronous dispatch of an event with unbounded
responders, a listener callback that raises is NOT contained: the listeners
before it run, the raising listener runs, the exception escapes the dispatch
(`true`), and every listener after the raising one is skipped.  (During
asynchronous dispatch all eligible listeners are scheduled together, so they
do run, but the exception still escapes the dispatch task and the raising
callback stays in the busy set — see C7.) -/
theorem claim_C6_amended {Cb : Type} (raises : Cb → Bool) (m : ListenerMap Cb)
    (topic : String) (pre post : List (EventListener Cb)) (l : EventListener Cb)
    (hm : alistGet m topic = some (pre ++ l :: post))
    (hpre : ∀ x ∈ pre, raises x.callback = false)
    (hl : raises l.callback = true) :
    sync_trigger raises m false topic (-1) =
      (pre.map (fun x => x.callback) ++ [l.callback], true) := by
  unfold sync_trigger
  rw [hm]
  exact triggerLoop_prefix_raise raises l post hl pre 0 hpre

/-- C6 witness: the amended theorem at the counterexample dispatch. -/
theorem claim_C6_witness :
    sync_trigger (fun n : Nat => decide (n = 1))
        [("t", [⟨1, .HIGH⟩, ⟨2, .NORMAL⟩])] false "t" (-1) =
      (([] : List (EventListener Nat)).map (fun x => x.callback) ++ [1], true) :=
  claim_C6_amended (fun n : Nat => decide (n = 1))
    [("t", [⟨1, .HIGH⟩, ⟨2, .NORMAL⟩])] "t" [] [⟨2, .NORMAL⟩] ⟨1, .HIGH⟩
    (by decide) (by intro x hx; simp at hx) (by decide)

/-! ## C7 — busy set on close -/

/-- C7 counterexample.  One asynchronous dispatch whose only listener
(callback `0`) raises: `_run_listener` adds `0` to the busy set and the
removal on line 168 is never reached, and `close` (which only drains the
queue and awaits tasks) does not clear the busy set — so the busy set after
`close` returns is `[0]`, not empty. -/
theorem claim_C7_counterexample :
    close_busy (runDispatchQueue (fun n : Nat => decide (n = 0))
        [⟨⟨-1, false⟩, [⟨0, .NORMAL⟩]⟩] []) = [0] ∧
    close_busy (runDispatchQueue (fun n : Nat => decide (n = 0))
        [⟨⟨-1, false⟩, [⟨0, .NORMAL⟩]⟩] []) ≠ [] := by
  decide

theorem mem_pySlice {α : Type} {l : List α} {k : Int} {x : α}
    (h : x ∈ pySlice l k) : x ∈ l := by
  unfold pySlice at h
  split at h <;> exact List.take_subset _ _ h

theorem foldl_run_listener_nil {Cb : Type} [DecidableEq Cb] (raises : Cb → Bool)
    (ab : Bool) (ls : List (EventListener Cb))
    (h : ∀ l ∈ ls, raises l.callback = false) :
    ls.foldl (fun b l => run_listener_busy raises ab b l.callback) [] = [] := by
  induction ls with
  | nil => rfl
  | cons x rest ih =>
    have hx : raises x.callback = false := h x (List.mem_cons_self _ _)
    have hstep : run_listener_busy raises ab [] x.callback = [] := by
      simp [run_listener_busy, hx, sinsert, remove_busy_listener]
    rw [List.foldl_cons, hstep]
    exact ih (fun l hl => h l (List.mem_cons_of_mem _ hl))

theorem async_trigger_busy_nil {Cb : Type} [DecidableEq Cb] (raises : Cb → Bool)
    (ev : AsyncEvent) (listeners : List (EventListener Cb))
    (h : ∀ l ∈ listeners, raises l.callback = false) :
    async_trigger_busy raises false ev listeners [] = [] := by
  simp only [async_trigger_busy, Bool.false_eq_true, if_false]
  exact foldl_run_listener_nil raises ev.allowBusyTrigger _
    (fun l hl => h l (mem_pySlice hl))

/-- C7 amended: the busy set is empty when `close` returns provided no
listener callback raised during the asynchronous dispatches; a dispatch whose
callback raises leaves that callback in the busy set permanently, because
`_run_listener` removes it only after a successful await and `close` never
touches the busy set. -/
theorem claim_C7_amended {Cb : Type} [DecidableEq Cb] (raises : Cb → Bool)
    (queue : List (ADispatch Cb))
    (h : ∀ d ∈ queue, ∀ l ∈ d.listeners, raises l.callback = false) :
    close_busy (runDispatchQueue raises queue []) = [] := by
  unfold close_busy runDispatchQueue
  induction queue with
  | nil => rfl
  | cons d rest ih =>
    rw [List.foldl_cons,
      async_trigger_busy_nil raises d.ev d.listeners
        (h d (List.mem_cons_self _ _))]
    exact ih (fun d2 hd2 => h d2 (List.mem_cons_of_mem _ hd2))

/-- C7 witness: the amended theorem at a queue of one dispatch whose listener
does not raise. -/
theorem claim_C7_witness :
    close_busy (runDispatchQueue (fun _ : Nat => false)
        [⟨⟨-1, false⟩, [⟨0, .NORMAL⟩]⟩] []) = [] :=
  claim_C7_amended (fun _ : Nat => false) [⟨⟨-1, false⟩, [⟨0, .NORMAL⟩]⟩]
    (by intro d hd l hl; rfl)

/-! ## C8 — stages of a compiled search hierarchy -/

theorem format_css_selectors_ok (attrs : List (String × String))
    (h : ∀ p ∈ attrs, p.2 ≠ "") :
    format_css_selectors attrs = .ok (attrs.map (fun p => fmtSelector p.1 p.2)) := by
  induction attrs with
  | nil => rfl
  | cons p rest ih =>
    obtain ⟨n, v⟩ := p
    have hv : ¬ v = "" := h (n, v) (List.mem_cons_self _ _)
    simp only [format_css_selectors, if_neg hv,
      ih (fun q hq => h q (List.mem_cons_of_mem _ hq)), Except.map, List.map_cons]

theorem format_search_hierarchy_ok (sets : List (List (String × String)))
    (h : ∀ t ∈ sets, ∀ p ∈ t, p.2 ≠ "") :
    format_search_hierarchy_from_attributes sets =
      .ok ((sets.map (fun t => t.map (fun p => fmtSelector p.1 p.2))).flatten) := by
  induction sets with
  | nil => rfl
  | cons t rest ih =>
    simp only [format_search_hierarchy_from_attributes, List.map_cons, List.flatten]
    rw [format_css_selectors_ok t (h t (List.mem_cons_self _ _)),
        ih (fun t2 ht2 => h t2 (List.mem_cons_of_mem _ ht2))]
    rfl

/-- C8 counterexample.  The claim says each attribute-descriptor set compiles
to exactly one stage.  `format_search_hierarchy_from_attributes` calls
`search_hierarchy.extend(...)` (line 85), which appends one selector per
attribute of the set: the single set `[("class", "a"), ("id", "x")]` yields
the two-stage hierarchy `[".a", "[id=x]"]`, not one stage. -/
theorem claim_C8_counterexample :
    format_search_hierarchy_from_attributes [[("class", "a"), ("id", "x")]] =
      .ok [".a", "[id=x]"] ∧
    ¬ [".a", "[id=x]"].length = [[("class", "a"), ("id", "x")]].length :=
  ⟨by rfl, by decide⟩

/-- C8 amended: compiling a raw `search_hierarchy` field emits, for each
attribute-descriptor set, one CSS selector per attribute name (by the rule of
`format_css_selectors`), extended flat into the hierarchy — so the number of
stages equals the total number of attribute names across the sets, not the
number of sets. -/
theorem claim_C8_amended (sets : List (List (String × String)))
    (h : ∀ t ∈ sets, ∀ p ∈ t, p.2 ≠ "") :
    format_search_hierarchy_from_attributes sets =
      .ok ((sets.map (fun t => t.map (fun p => fmtSelector p.1 p.2))).flatten) ∧
    ((sets.map (fun t => t.map (fun p => fmtSelector p.1 p.2))).flatten).length =
      (sets.map List.length).sum := by
  refine ⟨format_search_hierarchy_ok sets h, ?_⟩
  have hlen : (List.length ∘ fun t : List (String × String) =>
      List.map (fun p => fmtSelector p.1 p.2) t) = List.length := by
    funext t
    simp [Function.comp, List.length_map]
  rw [List.length_flatten, List.map_map, hlen]

/-- C8 witness: the amended theorem at the counterexample set sequence. -/
theorem claim_C8_witness :
    format_search_hierarchy_from_attributes [[("class", "a"), ("id", "x")]] =
      .ok (([[("class", "a"), ("id", "x")]].map
        (fun t => t.map (fun p => fmtSelector p.1 p.2))).flatten) ∧
    (([[("class", "a"), ("id", "x")]].map
        (fun t => t.map (fun p => fmtSelector p.1 p.2))).flatten).length =
      ([[("class", "a"), ("id", "x")]].map List.length).sum :=
  claim_C8_amended [[("class", "a"), ("id", "x")]] (by decide)

/-! ## C9 — attribute compilation round trip -/

theorem upsertAppend_get_same (m : List (String × List String)) (k v : String) :
    alistGet (upsertAppend m k v) k = some ((alistGet m k).getD [] ++ [v]) := by
  induction m with
  | nil => simp [upsertAppend, alistGet]
  | cons p rest ih =>
    obtain ⟨k2, vs⟩ := p
    by_cases hk : k2 = k
    · subst hk
      simp [upsertAppend, alistGet]
    · simp [upsertAppend, alistGet, hk, ih]

theorem upsertAppend_get_other (m : List (String × List String)) (j v k : String)
    (hjk : ¬ j = k) :
    alistGet (upsertAppend m j v) k = alistGet m k := by
  induction m with
  | nil => simp [upsertAppend, alistGet, hjk]
  | cons p rest ih =>
    obtain ⟨k2, vs⟩ := p
    by_cases h2 : k2 = j
    · subst h2
      simp [upsertAppend, alistGet, hjk]
    · simp [upsertAppend, alistGet, h2, ih]

theorem foldl_upsert_get (attrs : List (String × String)) :
    ∀ (acc : List (String × List String)) (k : String),
    (alistGet (attrs.foldl (fun a p => upsertAppend a p.1 p.2) acc) k).getD [] =
      (alistGet acc k).getD [] ++
        ((attrs.filter (fun p => p.1 = k)).map (fun p => p.2)) := by
  induction attrs with
  | nil =>
    intro acc k
    simp
  | cons p rest ih =>
    intro acc k
    obtain ⟨n, v⟩ := p
    rw [List.foldl_cons]
    by_cases hk : n = k
    · subst hk
      rw [ih (upsertAppend acc n v) n]
      rw [upsertAppend_get_same]
      simp [List.filter_cons]
    · rw [ih (upsertAppend acc n v) k]
      rw [upsertAppend_get_other acc n v k hk]
      simp [List.filter_cons, hk]

theorem alistGet_map_joinSpace (m : List (String × List String)) (k : String) :
    alistGet (m.map (fun p => (p.1, joinSpace p.2))) k =
      (alistGet m k).map joinSpace := by
  induction m with
  | nil => rfl
  | cons p rest ih =>
    obtain ⟨k2, vs⟩ := p
    by_cases h2 : k2 = k
    · subst h2
      simp [alistGet]
    · simp [alistGet, h2, ih]

theorem collectAttrLoop_ok (attrs : List (String × String)) :
    ∀ (acc : List (String × List String)),
    (∀ p ∈ attrs, ¬ p.1 = "" ∧ ¬ p.2 = "") →
    collectAttrLoop attrs acc =
      .ok (attrs.foldl (fun a p => upsertAppend a p.1 p.2) acc) := by
  induction attrs with
  | nil => intro acc _; rfl
  | cons p rest ih =>
    intro acc h
    obtain ⟨n, v⟩ := p
    have hp := h (n, v) (List.mem_cons_self _ _)
    have hcond : ¬ (v = "" ∨ n = "") := by
      intro hc
      rcases hc with hc | hc
      · exact hp.2 hc
      · exact hp.1 hc
    simp only [collectAttrLoop, if_neg hcond, List.foldl_cons]
    exact ih _ (fun q hq => h q (List.mem_cons_of_mem _ hq))

theorem optionMap_joinSpace_getD (o : Option (List String)) :
    (o.map joinSpace).getD "" = joinSpace (o.getD []) := by
  cases o <;> rfl

/-- C9: the attributes entries `[(class, "a b"), (id, "x")]` compile to
exactly the hierarchy `[".a.b", "[id=x]"]`; in general, `format_css_selectors`
emits one selector per attribute name in insertion order — `.t₁.t₂…` for a
`class` value split on whitespace, `[name=value]` otherwise — and
`collect_attributes` space-joins the values recorded under each name in entry
order. -/
theorem claim_C9 :
    compileTargetAttributes [("class", "a b"), ("id", "x")] =
      .ok [".a.b", "[id=x]"] ∧
    (∀ (m : List (String × String)), (∀ p ∈ m, p.2 ≠ "") →
      format_css_selectors m = .ok (m.map (fun p => fmtSelector p.1 p.2))) ∧
    (∀ (raw : List (String × String)) (k : String),
      (∀ p ∈ raw, ¬ p.1 = "" ∧ ¬ p.2 = "") →
      ∃ m, collect_attributes raw = .ok m ∧
        (alistGet m k).getD "" =
          joinSpace ((raw.filter (fun p => p.1 = k)).map (fun p => p.2))) := by
  refine ⟨by rfl, format_css_selectors_ok, ?_⟩
  intro raw k h
  refine ⟨(raw.foldl (fun a p => upsertAppend a p.1 p.2) []).map
    (fun p => (p.1, joinSpace p.2)), ?_, ?_⟩
  · unfold collect_attributes
    rw [collectAttrLoop_ok raw [] h]
    rfl
  · rw [alistGet_map_joinSpace, optionMap_joinSpace_getD, foldl_upsert_get]
    simp [alistGet]

/-- C9 witness: the general selector rule of the theorem applied at a
concrete formatted-attribute dictionary. -/
theorem claim_C9_witness :
    format_css_selectors [("id", "x")] =
      .ok ([("id", "x")].map (fun p => fmtSelector p.1 p.2)) :=
  claim_C9.2.1 [("id", "x")] (by decide)

/-! ## C10 — remove_listener totality -/

theorem alistGet_alistSet_ne {α : Type} (m : List (String × α)) (j : String)
    (v : α) (k : String) (hjk : ¬ j = k) :
    alistGet (alistSet m j v) k = alistGet m k := by
  induction m with
  | nil => simp [alistSet, alistGet, hjk]
  | cons p rest ih =>
    obtain ⟨k2, w⟩ := p
    by_cases h2 : k2 = j
    · subst h2
      simp [alistSet, alistGet, hjk]
    · simp [alistSet, alistGet, h2, ih]

theorem add_listener_get_other {Cb : Type} [DecidableEq Cb] (m : ListenerMap Cb)
    (t : String) (cb : Cb) (p : Priority) (k : String) (htk : ¬ t = k) :
    alistGet (add_listener m t cb p) k = alistGet m k := by
  have hreg : alistGet (register_event_listener m t cb p) k = alistGet m k := by
    simp only [register_event_listener]
    split
    · rfl
    · exact alistGet_alistSet_ne _ _ _ _ htk
  unfold add_listener sort_listeners
  split
  · exact hreg
  · rw [alistGet_alistSet_ne _ _ _ _ htk]
    exact hreg

theorem foldl_add_listener_get_none {Cb : Type} [DecidableEq Cb] :
    ∀ (ops : List (String × Cb × Priority)) (m : ListenerMap Cb) (topic : String),
    (∀ a ∈ ops, ¬ a.1 = topic) → alistGet m topic = none →
    alistGet (ops.foldl (fun m o => add_listener m o.1 o.2.1 o.2.2) m) topic = none
  | [], _, _, _, hm => hm
  | o :: rest, m, topic, h, hm => by
    rw [List.foldl_cons]
    refine foldl_add_listener_get_none rest _ topic
      (fun a ha => h a (List.mem_cons_of_mem _ ha)) ?_
    rw [add_listener_get_other m o.1 o.2.1 o.2.2 topic (h o (List.mem_cons_self _ _))]
    exact hm

/-- C10: `remove_listener` on a topic that no `add_listener` call ever
registered raises (`self._listeners.get(event_name)` is `None` and the `for`
iteration over it raises `TypeError`); on a topic with at least one
registered listener the call never raises. -/
theorem claim_C10 {Cb : Type} [DecidableEq Cb] :
    (∀ (ops : List (String × Cb × Priority)) (topic : String) (cb : Cb),
      (∀ a ∈ ops, ¬ a.1 = topic) →
      remove_listener (applyAdds ops) topic cb =
        .error "TypeError: argument of type NoneType is not iterable") ∧
    (∀ (m : ListenerMap Cb) (topic : String) (cb : Cb) (l : EventListener Cb)
        (ls : List (EventListener Cb)),
      alistGet m topic = some (l :: ls) →
      ∃ m2, remove_listener m topic cb = .ok m2) := by
  constructor
  · intro ops topic cb h
    unfold remove_listener
    rw [show alistGet (applyAdds ops) topic = none from
      foldl_add_listener_get_none ops [] topic h rfl]
  · intro m topic cb l ls hm
    unfold remove_listener
    rw [hm]
    dsimp only
    split
    · exact ⟨m, rfl⟩
    · exact ⟨_, rfl⟩

/-- C10 witness: the theorem at a dispatcher with one listener on topic "a",
removing from the unregistered topic "b" (raises) and from the populated
topic "t" of a second map (returns normally). -/
theorem claim_C10_witness :
    remove_listener (applyAdds [("a", (0 : Nat), Priority.NORMAL)]) "b" 0 =
      .error "TypeError: argument of type NoneType is not iterable" ∧
    ∃ m2, remove_listener ([("t", [⟨(5 : Nat), Priority.NORMAL⟩])] :
      ListenerMap Nat) "t" 5 = .ok m2 :=
  ⟨(@claim_C10 Nat _).1 [("a", 0, Priority.NORMAL)] "b" 0 (by decide),
   (@claim_C10 Nat _).2 [("t", [⟨5, Priority.NORMAL⟩])] "t" 5
     ⟨5, Priority.NORMAL⟩ [] (by decide)⟩

end Spyglass
